import Mathlib

/-!
Verification of kibctl (a Kibana CLI client, Go, `src/main.go` + `src/client.go`)
against its natural-language specification.

The embedding models:
  * JSON documents as an inductive `Json` value (the Go code works on raw
    bytes through the gjson/sjson path libraries; we model a document as its
    parsed tree and model gjson path lookups as tree navigation, and gjson
    queries on embedded JSON *text* — the `visState` string — through an
    executable JSON parser `parseJson`);
  * the remote server as an oracle (`Server`) mapping each HTTP call the
    client issues to its parsed outcome: a transport/API error string or the
    parsed payload;
  * each client function (`searchDashboard`, `getDashboard`,
    `getIndexPattern`, `export` — named `exportDash` here since `export` is a
    Lean keyword, `scanForIndexPatterns`, `_import` — named `importDash`) and
    each CLI action of main.go (`checkGlobals`, `export`/`list`/`_import`
    actions) as a Lean function mirroring the Go control flow line by line.
-/

/-- JSON values.  Numbers keep their raw text (the client never computes with
numbers; gjson keeps raw slices too). -/
inductive Json where
  | null
  | bool (b : Bool)
  | num (raw : String)
  | str (s : String)
  | arr (elems : List Json)
  | obj (fields : List (String × Json))
deriving Repr

/-- First binding with the given key, as gjson object lookup returns the
first match. -/
def lookupField : List (String × Json) → String → Option Json
  | [], _ => none
  | (k', v) :: rest, k => if k' == k then some v else lookupField rest k

/-- gjson single path component on a value: only objects have fields. -/
def getField : Json → String → Option Json
  | Json.obj fields, k => lookupField fields k
  | _, _ => none

/-- gjson dotted path (`"a.b"` modelled as `["a", "b"]`). -/
def getPath : Json → List String → Option Json
  | j, [] => some j
  | j, k :: rest =>
    match getField j k with
    | some v => getPath v rest
    | none => none

/-! ### An executable JSON parser (model of gjson parsing of embedded text) -/

def lbrace : Char := Char.ofNat 123
def rbrace : Char := Char.ofNat 125

def isWsChar (c : Char) : Bool := c == ' ' || c == '\n' || c == '\t' || c == '\r'

def skipWs : List Char → List Char
  | [] => []
  | c :: rest => if isWsChar c then skipWs rest else c :: rest

def hexVal (c : Char) : Option Nat :=
  if '0' ≤ c && c ≤ '9' then some (c.toNat - 48)
  else if 'a' ≤ c && c ≤ 'f' then some (c.toNat - 87)
  else if 'A' ≤ c && c ≤ 'F' then some (c.toNat - 55)
  else none

/-- Parse the body of a JSON string after the opening quote; returns the
decoded characters and the rest after the closing quote. -/
def parseStringBody : Nat → List Char → Option (List Char × List Char)
  | 0, _ => none
  | _, [] => none
  | fuel + 1, c :: rest =>
    if c == '"' then some ([], rest)
    else if c == '\\' then
      match rest with
      | [] => none
      | e :: rest2 =>
        let dec : Option (Char × List Char) :=
          if e == '"' then some ('"', rest2)
          else if e == '\\' then some ('\\', rest2)
          else if e == '/' then some ('/', rest2)
          else if e == 'n' then some ('\n', rest2)
          else if e == 't' then some ('\t', rest2)
          else if e == 'r' then some ('\r', rest2)
          else if e == 'b' then some (Char.ofNat 8, rest2)
          else if e == 'f' then some (Char.ofNat 12, rest2)
          else if e == 'u' then
            match rest2 with
            | h1 :: h2 :: h3 :: h4 :: rest3 =>
              match hexVal h1, hexVal h2, hexVal h3, hexVal h4 with
              | some a, some b, some c3, some d =>
                some (Char.ofNat (a * 4096 + b * 256 + c3 * 16 + d), rest3)
              | _, _, _, _ => none
            | _ => none
          else none
        match dec with
        | some (ch, rest') =>
          match parseStringBody fuel rest' with
          | some (s, r) => some (ch :: s, r)
          | none => none
        | none => none
    else
      match parseStringBody fuel rest with
      | some (s, r) => some (c :: s, r)
      | none => none

def isNumChar (c : Char) : Bool :=
  ('0' ≤ c && c ≤ '9') || c == '-' || c == '+' || c == '.' || c == 'e' || c == 'E'

def takeNumChars : List Char → (List Char × List Char)
  | [] => ([], [])
  | c :: rest =>
    if isNumChar c then
      let (n, r) := takeNumChars rest
      (c :: n, r)
    else ([], c :: rest)

def startsWithChars : List Char → List Char → Option (List Char)
  | [], cs => some cs
  | _, [] => none
  | p :: ps, c :: cs => if p == c then startsWithChars ps cs else none

/-- One step of the recursive-descent parse: parse a value, the members of
an object after its opening brace, or the elements of an array after its
opening bracket.  A single task type keeps the recursion structural on the
fuel, so the kernel can evaluate the parser. -/
inductive ParseTask where
  | value (cs : List Char)
  | objFields (cs : List Char) (acc : List (String × Json))
  | arrElems (cs : List Char) (acc : List Json)

def parseRun : Nat → ParseTask → Option (Json × List Char)
  | 0, _ => none
  | fuel + 1, ParseTask.value cs =>
    (match skipWs cs with
    | [] => none
    | c :: rest =>
      if c == '"' then
        match parseStringBody (fuel + 1) rest with
        | some (s, r) => some (Json.str (String.mk s), r)
        | none => none
      else if c == lbrace then parseRun fuel (ParseTask.objFields rest [])
      else if c == '[' then parseRun fuel (ParseTask.arrElems rest [])
      else if c == 't' then
        match startsWithChars ['r', 'u', 'e'] rest with
        | some r => some (Json.bool true, r)
        | none => none
      else if c == 'f' then
        match startsWithChars ['a', 'l', 's', 'e'] rest with
        | some r => some (Json.bool false, r)
        | none => none
      else if c == 'n' then
        match startsWithChars ['u', 'l', 'l'] rest with
        | some r => some (Json.null, r)
        | none => none
      else if isNumChar c then
        let (n, r) := takeNumChars (c :: rest)
        some (Json.num (String.mk n), r)
      else none)
  | fuel + 1, ParseTask.objFields cs acc =>
    (match skipWs cs with
    | [] => none
    | c :: rest =>
      if c == rbrace then some (Json.obj acc, rest)
      else if c == '"' then
        match parseStringBody (fuel + 1) rest with
        | some (k, r1) =>
          match skipWs r1 with
          | ':' :: r2 =>
            match parseRun fuel (ParseTask.value r2) with
            | some (v, r3) =>
              match skipWs r3 with
              | ',' :: r4 => parseRun fuel (ParseTask.objFields r4 (acc ++ [(String.mk k, v)]))
              | c2 :: r4 =>
                if c2 == rbrace then some (Json.obj (acc ++ [(String.mk k, v)]), r4)
                else none
              | [] => none
            | none => none
          | _ => none
        | none => none
      else none)
  | fuel + 1, ParseTask.arrElems cs acc =>
    (match skipWs cs with
    | [] => none
    | c :: rest =>
      if c == ']' then some (Json.arr acc, rest)
      else
        match parseRun fuel (ParseTask.value (c :: rest)) with
        | some (v, r1) =>
          match skipWs r1 with
          | ',' :: r2 => parseRun fuel (ParseTask.arrElems r2 (acc ++ [v]))
          | ']' :: r2 => some (Json.arr (acc ++ [v]), r2)
          | _ => none
        | none => none)

/-- Parse a JSON text.  gjson does not require the whole input to be
consumed, so trailing text is ignored. -/
def parseJson (s : String) : Option Json :=
  match parseRun (s.length + 1) (ParseTask.value s.toList) with
  | some (j, _) => some j
  | none => none

/-- Go's `strings.Replace(s, old, new, -1)`: replace every non-overlapping
occurrence of `old`, scanning left to right.  (Defined directly so that the
kernel can evaluate it; the fuel bounds the scan by the input length and
never runs out for the non-empty `old` the client uses.) -/
def replaceAllAux (old new : List Char) : Nat → List Char → List Char
  | 0, s => s
  | _, [] => []
  | fuel + 1, c :: rest =>
    match startsWithChars old (c :: rest) with
    | some remainder => new ++ replaceAllAux old new fuel remainder
    | none => c :: replaceAllAux old new fuel rest

def goReplace (s old new : String) : String :=
  String.mk (replaceAllAux old.toList new.toList (s.length + 1) s.toList)

/-! ### gjson `Result.String()` -/

def escapeChar (c : Char) : List Char :=
  if c == '"' then ['\\', '"']
  else if c == '\\' then ['\\', '\\']
  else if c == '\n' then ['\\', 'n']
  else if c == '\t' then ['\\', 't']
  else if c == '\r' then ['\\', 'r']
  else [c]

def escapeString (s : String) : String :=
  String.mk (s.toList.flatMap escapeChar)

mutual

/-- Raw JSON text of a value (used by gjson `String()` on arrays/objects). -/
def render : Json → String
  | Json.null => "null"
  | Json.bool true => "true"
  | Json.bool false => "false"
  | Json.num raw => raw
  | Json.str s => "\"" ++ escapeString s ++ "\""
  | Json.arr xs => "[" ++ renderElems xs ++ "]"
  | Json.obj fs => String.mk [lbrace] ++ renderFields fs ++ String.mk [rbrace]

def renderElems : List Json → String
  | [] => ""
  | [x] => render x
  | x :: y :: rest => render x ++ "," ++ renderElems (y :: rest)

def renderFields : List (String × Json) → String
  | [] => ""
  | [(k, v)] => "\"" ++ escapeString k ++ "\":" ++ render v
  | (k, v) :: p :: rest =>
    "\"" ++ escapeString k ++ "\":" ++ render v ++ "," ++ renderFields (p :: rest)

end

/-- gjson `Result.String()`: the string value of a string result, `""` for
null, `true`/`false` for booleans, raw text for numbers, raw JSON for
arrays and objects. -/
def gjsonString : Json → String
  | Json.null => ""
  | Json.bool true => "true"
  | Json.bool false => "false"
  | Json.num raw => raw
  | Json.str s => s
  | Json.arr xs => render (Json.arr xs)
  | Json.obj fs => render (Json.obj fs)

/-! ### Dependency scanner (`scanForIndexPatterns`, client.go 154-171) -/

/-- `gjson.Get(string(dashboard), "objects.#.attributes.visState")`:
the `attributes.visState` value of every element of `objects` that has one,
in order. -/
def visStates (d : Json) : List Json :=
  match getField d "objects" with
  | some (Json.arr xs) => xs.filterMap (fun x => getPath x ["attributes", "visState"])
  | _ => []

/-- `gjson.Get(visualisation, "params.index_pattern")` where `visualisation`
is JSON *text*: parse, then navigate. -/
def gjsonGetText (s : String) (path : List String) : Option Json :=
  match parseJson s with
  | some j => getPath j path
  | none => none

/-- Insertion into the Go `map[string]struct{}` accumulator: a set of keys.
The model keeps first-insertion order (Go map iteration order is
unspecified; no claim depends on the output order, only on the set). -/
def insertNew (names : List String) (s : String) : List String :=
  if s ∈ names then names else names ++ [s]

/-- One loop body of `scanForIndexPatterns`: unescape the `visState` text
(`strings.Replace(val.String(), backslash-quote, quote, -1)`), query
`params.index_pattern` in it, and record the name when present. -/
def scanStep (names : List String) (val : Json) : List String :=
  let visualisation := goReplace (gjsonString val) "\\\"" "\""
  match gjsonGetText visualisation ["params", "index_pattern"] with
  | some index => insertNew names (gjsonString index)
  | none => names

/-- client.go 154-171.  The Go function also returns an error that is always
nil; the model keeps the always-successful list. -/
def scanForIndexPatterns (d : Json) : List String :=
  (visStates d).foldl scanStep []

/-! ### Server oracle and client functions (client.go) -/

/-- A dashboard search record: `{id, attributes:{title}}` parsed by
`searchDashboard`. -/
structure Dashboard where
  id : String
  title : String
deriving Repr, DecidableEq

/-- The remote server, abstracted as the parsed outcome of each HTTP call
the client issues: an error string (transport failure or the non-2xx
status/body error the client builds) or the parsed payload. -/
structure Server where
  /-- `GET .../saved_objects/_find?type=dashboard...&search={pattern}`, with
  the response's `saved_objects` parsed into records (client.go 98-131). -/
  findDashboards : String → Except String (List Dashboard)
  /-- `GET .../dashboards/export?dashboard={id}` response body as a parsed
  document (client.go 133-152). -/
  dashboardExport : String → Except String Json
  /-- `GET .../saved_objects/_find?type=index-pattern...&search="{name}"`,
  the response's `saved_objects` array (client.go 174-195). -/
  findIndexPatterns : String → Except String (List Json)

def searchDashboard (srv : Server) (pattern : String) : Except String (List Dashboard) :=
  srv.findDashboards pattern

def getDashboard (srv : Server) (id : String) : Except String Json :=
  srv.dashboardExport id

/-- client.go 173-204: `_find` for the index pattern, then the cardinality
checks.  Note the capital `M` in the many-match message (client.go 200). -/
def getIndexPattern (srv : Server) (name : String) : Except String Json :=
  match srv.findIndexPatterns name with
  | Except.error e => Except.error e
  | Except.ok patterns =>
    match patterns with
    | [] => Except.error ("no index-pattern found matching: " ++ name ++ ".\n")
    | [p] => Except.ok p
    | _ :: _ :: _ =>
      Except.error ("More than one index-pattern found matching: " ++ name ++ ".\n")

/-- A model of `sjson.SetRawBytes(doc, "objects.-1", v)`: the new document
and the error, mirroring Go's `(result, err)` pair. -/
abbrev SetRaw := Json → Json → Json × Option String

def setField : List (String × Json) → String → Json → List (String × Json)
  | [], k, v => [(k, v)]
  | (k', v') :: rest, k, v =>
    if k' == k then (k, v) :: rest else (k', v') :: setField rest k v

/-- The concrete behaviour of `sjson.SetRawBytes(doc, "objects.-1", v)` on
the documents the client handles: append `v` to the `objects` array. -/
def appendObject : SetRaw := fun d v =>
  match d with
  | Json.obj fields =>
    match lookupField fields "objects" with
    | some (Json.arr xs) => (Json.obj (setField fields "objects" (Json.arr (xs ++ [v]))), none)
    | some _ => (d, some "cannot append to non-array value")
    | none => (Json.obj (setField fields "objects" (Json.arr [v])), none)
  | _ => (d, some "json must be an object or array")

/-- The dependency loop of `export` (client.go 75-84): fetch each index
pattern (fail-fast on its error), then `dashboard, err = sjson.SetRawBytes(...)`
— whose error is assigned but never checked before the next iteration or the
final `return dashboard, nil`. -/
def exportLoop (srv : Server) (setRaw : SetRaw) : List String → Json → Except String Json
  | [], dashboard => Except.ok dashboard
  | n :: rest, dashboard =>
    match getIndexPattern srv n with
    | Except.error e => Except.error e
    | Except.ok indexPattern => exportLoop srv setRaw rest (setRaw dashboard indexPattern).1

/-- client.go 50-87 (`export`; renamed, `export` is a Lean keyword).  The
append step is passed in as `setRaw` so that theorems can quantify over the
behaviour of `sjson.SetRawBytes`. -/
def exportDash (srv : Server) (setRaw : SetRaw) (name : String) : Except String Json :=
  match searchDashboard srv ("\"" ++ name ++ "\"") with
  | Except.error e => Except.error e
  | Except.ok result =>
    match result with
    | [] => Except.error ("no dashboard found matching: " ++ name ++ ".\n")
    | [d] =>
      match getDashboard srv d.id with
      | Except.error e => Except.error e
      | Except.ok dashboard => exportLoop srv setRaw (scanForIndexPatterns dashboard) dashboard
    | _ :: _ :: _ => Except.error ("more than one dashboard found matching: " ++ name ++ ".\n")

/-! ### Request URLs (client.go 99 and 174) -/

def searchDashboardURL (host pattern : String) : String :=
  host ++ "/api/saved_objects/_find?type=dashboard&per_page=200&search_fields=title&search="
    ++ pattern

def getIndexPatternURL (host name : String) : String :=
  host ++ "/api/saved_objects/_find?type=index-pattern&search_fields=title&search=\""
    ++ name ++ "\""

/-- `sub` occurs as a contiguous substring of `s`. -/
def containsSub (s sub : String) : Prop :=
  sub.data <:+: s.data

instance (s sub : String) : Decidable (containsSub s sub) :=
  inferInstanceAs (Decidable (sub.data <:+: s.data))

/-! ### CLI actions (main.go) -/

/-- The global flags bound by the CLI (main.go 13-14). -/
structure Globals where
  host : String
  username : String
  password : String
deriving Repr, DecidableEq

/-- A CLI error: message and exit code (`cli.NewExitError`). -/
abbrev CliError := String × Nat

/-- main.go 103-114. -/
def checkGlobals (g : Globals) : Except CliError Unit :=
  if g.host = "" then Except.error ("kibana host not defined", 1)
  else if g.username = "" then Except.error ("kibana username not defined", 1)
  else if g.password = "" then Except.error ("kibana password not defined", 1)
  else Except.ok ()

/-- Go `fmt.Sprintf("%-40v ...")` padding: left-justify, pad on the right
with spaces up to the width. -/
def padRightTo (s : String) (w : Nat) : String :=
  s ++ String.mk (List.replicate (w - s.length) ' ')

/-- One output line of the `list` command: `fmt.Sprintf("%-40v %v\n", id, name)`
(main.go 153, 155). -/
def listLine (id name : String) : String :=
  padRightTo id 40 ++ " " ++ name ++ "\n"

/-- Everything `list` writes to stdout: the header then one line per record,
in the order the search returned them. -/
def listOutput (ds : List Dashboard) : String :=
  listLine "ID" "NAME" ++ String.join (ds.map fun d => listLine d.id d.title)

/-- main.go 144-158 (`list`): check globals, search with the raw pattern,
print header and rows.  The result is the text written to stdout. -/
def listAction (g : Globals) (srv : Server) (pattern : String) : Except CliError String :=
  match checkGlobals g with
  | Except.error e => Except.error e
  | Except.ok _ =>
    match searchDashboard srv pattern with
    | Except.error e => Except.error (e, 2)
    | Except.ok dashboards => Except.ok (listOutput dashboards)

/-- main.go 128-142 (`export` action): check globals, require a name, run
the client export, exit code 2 on its error. -/
def exportAction (g : Globals) (srv : Server) (setRaw : SetRaw) (name : String) :
    Except CliError Json :=
  match checkGlobals g with
  | Except.error e => Except.error e
  | Except.ok _ =>
    if name = "" then Except.error ("dashboard name missing", 1)
    else
      match exportDash srv setRaw name with
      | Except.error e => Except.error (e, 2)
      | Except.ok d => Except.ok d

/-- client.go 28-48 (`_import`): POST the payload; a transport error or a
non-200 status is an error, otherwise success.  `post` is the oracle for
the endpoint: payload to transport error or (status, body). -/
def importDash (post : String → Except String (Nat × String)) (payload : String) :
    Except String Unit :=
  match post payload with
  | Except.error e => Except.error e
  | Except.ok (status, details) =>
    if status ≠ 200 then
      Except.error ("failed to import dashboard. Status:" ++ toString status
        ++ ". Response:" ++ details ++ ".\n")
    else Except.ok ()

/-- main.go 116-126 (`_import` action): read stdin, run the client import.
It never calls `checkGlobals`, so it takes the globals only to show the
result does not depend on them. -/
def importAction (_g : Globals) (stdin : Except String String)
    (post : String → Except String (Nat × String)) : Except CliError Unit :=
  match stdin with
  | Except.error e => Except.error ("could not read import input: " ++ e, 2)
  | Except.ok payload =>
    match importDash post payload with
    | Except.error e => Except.error (e, 2)
    | Except.ok _ => Except.ok ()

/-! ### Spec-worded definitions (for refinement comparisons only) -/

/-- Modelled from the spec claim wording: a `list` line with the ID
*left-padded* (spaces prepended) to 40 characters. -/
def specLeftPadTo (s : String) (w : Nat) : String :=
  String.mk (List.replicate (w - s.length) ' ') ++ s

/-- Modelled from the spec claim wording: the whole `list` output with every
line using left-padding. -/
def specListOutput (ds : List Dashboard) : String :=
  (specLeftPadTo "ID" 40 ++ " " ++ "NAME" ++ "\n")
    ++ String.join (ds.map fun d => specLeftPadTo d.id 40 ++ " " ++ d.title ++ "\n")

/-! ### Concrete data (the spec's "Sales" scenario) -/

/-- The `visState` text of a visualization on `logs-*`, as it sits inside the
export document: JSON serialized into a string, quotes escaped. -/
def visStateLogs : String :=
  "\x7b\\\"params\\\":\x7b\\\"index_pattern\\\":\\\"logs-*\\\"\x7d\x7d"

def visStateMetrics : String :=
  "\x7b\\\"params\\\":\x7b\\\"index_pattern\\\":\\\"metrics-*\\\"\x7d\x7d"

/-- A `visState` with no `params.index_pattern` inside. -/
def visStateNoIndex : String :=
  "\x7b\\\"params\\\":\x7b\\\"fontSize\\\":60\x7d\x7d"

def demoDashObj : Json :=
  Json.obj [("id", Json.str "abc123"), ("type", Json.str "dashboard"),
            ("attributes", Json.obj [("title", Json.str "Sales")])]

def demoVis (vs : String) : Json :=
  Json.obj [("type", Json.str "visualization"),
            ("attributes", Json.obj [("visState", Json.str vs)])]

/-- The export document fetched for "Sales": the dashboard itself plus two
visualizations on `logs-*` (a duplicate reference) and one on `metrics-*`. -/
def demoDoc : Json :=
  Json.obj [("objects", Json.arr
    [demoDashObj, demoVis visStateLogs, demoVis visStateLogs, demoVis visStateMetrics])]

def logsPattern : Json :=
  Json.obj [("id", Json.str "ip-logs"), ("type", Json.str "index-pattern"),
            ("attributes", Json.obj [("title", Json.str "logs-*")])]

def metricsPattern : Json :=
  Json.obj [("id", Json.str "ip-metrics"), ("type", Json.str "index-pattern"),
            ("attributes", Json.obj [("title", Json.str "metrics-*")])]

/-- A server holding exactly the "Sales" dashboard and the two index
patterns its visualizations reference. -/
def demoServer : Server where
  findDashboards := fun p =>
    if p == "\"Sales\"" || p == "Sal" then Except.ok [⟨"abc123", "Sales"⟩]
    else Except.ok []
  dashboardExport := fun id =>
    if id == "abc123" then Except.ok demoDoc
    else Except.error ("failed to retrieve dashboard id " ++ id ++ ".")
  findIndexPatterns := fun n =>
    if n == "logs-*" then Except.ok [logsPattern]
    else if n == "metrics-*" then Except.ok [metricsPattern]
    else Except.ok []

/-- The demo export document with its `objects` reordered (the dashboard
object and the first visualization swapped). -/
def demoDocSwapped : Json :=
  Json.obj [("objects", Json.arr
    [demoVis visStateLogs, demoDashObj, demoVis visStateLogs, demoVis visStateMetrics])]

/-- A document containing a visualization whose `visState` has no
`params.index_pattern`, next to the `metrics-*` one. -/
def noIndexDoc : Json :=
  Json.obj [("objects", Json.arr [demoVis visStateNoIndex, demoVis visStateMetrics])]

/-- `noIndexDoc` with the non-matching visualization removed. -/
def noIndexDocDropped : Json :=
  Json.obj [("objects", Json.arr [demoVis visStateMetrics])]

/-- A server on which the `logs-*` index-pattern lookup finds two matches,
so the dependency resolution of "Sales" fails. -/
def twoPatternServer : Server where
  findDashboards := fun p =>
    if p == "\"Sales\"" then Except.ok [⟨"abc123", "Sales"⟩] else Except.ok []
  dashboardExport := fun id =>
    if id == "abc123" then Except.ok demoDoc
    else Except.error ("failed to retrieve dashboard id " ++ id ++ ".")
  findIndexPatterns := fun n =>
    if n == "logs-*" then Except.ok [logsPattern, logsPattern] else Except.ok []

/-- A server with two dashboards matching the quoted pattern "Dup". -/
def dupServer : Server where
  findDashboards := fun p =>
    if p == "\"Dup\"" then Except.ok [⟨"id1", "Dup"⟩, ⟨"id2", "Dup 2"⟩]
    else Except.ok []
  dashboardExport := fun id => Except.error ("failed to retrieve dashboard id " ++ id ++ ".")
  findIndexPatterns := fun _ => Except.ok []

/-- An `sjson.SetRawBytes` stand-in that always reports an error and leaves
the document unchanged. -/
def failSetRaw : SetRaw := fun d _ => (d, some "append failed")

/-- Non-empty credentials for the CLI actions. -/
def demoGlobals : Globals := ⟨"http://kibana:5601", "elastic", "changeme"⟩

/-- The name extracted from one `visState` value by the scanner loop body
(unescape, parse, look up `params.index_pattern`, take its gjson string). -/
def extractName (val : Json) : Option String :=
  match gjsonGetText (goReplace (gjsonString val) "\\\"" "\"") ["params", "index_pattern"] with
  | some index => some (gjsonString index)
  | none => none

/-- The sequence of index-pattern records fetched by export's dependency
loop, with its fail-fast-on-first-error semantics. -/
def resolveAll (srv : Server) : List String → Except String (List Json)
  | [] => Except.ok []
  | n :: rest =>
    match getIndexPattern srv n with
    | Except.error e => Except.error e
    | Except.ok p =>
      match resolveAll srv rest with
      | Except.error e => Except.error e
      | Except.ok ps => Except.ok (p :: ps)

/-- Length of a document's `objects` array. -/
def objectsLength (d : Json) : Nat :=
  match getField d "objects" with
  | some (Json.arr xs) => xs.length
  | _ => 0

/-! ### Lemmas about the scanner -/

theorem scanStep_eq (names : List String) (val : Json) :
    scanStep names val =
      match extractName val with
      | some s => insertNew names s
      | none => names := by
  simp only [scanStep, extractName]
  cases gjsonGetText (goReplace (gjsonString val) "\\\"" "\"") ["params", "index_pattern"] <;> rfl

theorem mem_insertNew (l : List String) (t s : String) :
    s ∈ insertNew l t ↔ s ∈ l ∨ s = t := by
  by_cases h : t ∈ l
  · simp only [insertNew, if_pos h]
    exact ⟨Or.inl, fun hs => hs.elim id (fun e => e ▸ h)⟩
  · simp [insertNew, if_neg h]

theorem nodup_insertNew (l : List String) (t : String) (h : l.Nodup) :
    (insertNew l t).Nodup := by
  by_cases ht : t ∈ l
  · simpa [insertNew, if_pos ht] using h
  · simp [insertNew, if_neg ht, List.nodup_append, h, ht]

theorem mem_foldl_scanStep (vs : List Json) (acc : List String) (s : String) :
    s ∈ vs.foldl scanStep acc ↔ s ∈ acc ∨ s ∈ vs.filterMap extractName := by
  induction vs generalizing acc with
  | nil => simp
  | cons v vs ih =>
    rw [List.foldl_cons, ih, scanStep_eq]
    cases h : extractName v with
    | none => simp [List.filterMap_cons, h]
    | some t =>
      simp only [List.filterMap_cons, h, List.mem_cons, mem_insertNew]
      tauto

theorem nodup_foldl_scanStep (vs : List Json) (acc : List String) (h : acc.Nodup) :
    (vs.foldl scanStep acc).Nodup := by
  induction vs generalizing acc with
  | nil => exact h
  | cons v vs ih =>
    rw [List.foldl_cons, scanStep_eq]
    cases hx : extractName v with
    | none => exact ih acc h
    | some t => exact ih _ (nodup_insertNew acc t h)

theorem mem_scan (d : Json) (s : String) :
    s ∈ scanForIndexPatterns d ↔ s ∈ (visStates d).filterMap extractName := by
  unfold scanForIndexPatterns
  rw [mem_foldl_scanStep]
  simp

theorem scan_nodup (d : Json) : (scanForIndexPatterns d).Nodup :=
  nodup_foldl_scanStep _ _ List.nodup_nil

theorem visStates_of_objects (d : Json) (xs : List Json)
    (h : getField d "objects" = some (Json.arr xs)) :
    visStates d = xs.filterMap (fun x => getPath x ["attributes", "visState"]) := by
  unfold visStates
  rw [h]

/-! ### Lemmas about the export loop -/

theorem lookupField_setField (fs : List (String × Json)) (k : String) (v : Json) :
    lookupField (setField fs k v) k = some v := by
  induction fs with
  | nil => simp [setField, lookupField]
  | cons p rest ih =>
    obtain ⟨k', v'⟩ := p
    by_cases h : (k' == k)
    · simp [setField, h, lookupField]
    · simp [setField, h, lookupField, ih]

theorem appendObject_objects (fields : List (String × Json)) (xs : List Json) (v : Json)
    (hobj : lookupField fields "objects" = some (Json.arr xs)) :
    appendObject (Json.obj fields) v =
      (Json.obj (setField fields "objects" (Json.arr (xs ++ [v]))), none) := by
  simp [appendObject, hobj]

theorem exportLoop_ok (srv : Server) (names : List String) :
    ∀ (fields : List (String × Json)) (xs ps : List Json),
      lookupField fields "objects" = some (Json.arr xs) →
      resolveAll srv names = Except.ok ps →
      ∃ fields',
        exportLoop srv appendObject names (Json.obj fields) = Except.ok (Json.obj fields') ∧
        lookupField fields' "objects" = some (Json.arr (xs ++ ps)) := by
  induction names with
  | nil =>
    intro fields xs ps hobj hres
    simp only [resolveAll, Except.ok.injEq] at hres
    exact ⟨fields, by simp [exportLoop], by simp [hobj, ← hres]⟩
  | cons n rest ih =>
    intro fields xs ps hobj hres
    unfold resolveAll at hres
    cases hp : getIndexPattern srv n with
    | error e => rw [hp] at hres; exact absurd hres (by simp)
    | ok p =>
      rw [hp] at hres
      cases hr : resolveAll srv rest with
      | error e => rw [hr] at hres; exact absurd hres (by simp)
      | ok ps' =>
        rw [hr] at hres
        simp only [Except.ok.injEq] at hres
        obtain ⟨f', h1, h2⟩ :=
          ih (setField fields "objects" (Json.arr (xs ++ [p]))) (xs ++ [p]) ps'
            (lookupField_setField fields "objects" (Json.arr (xs ++ [p]))) hr
        refine ⟨f', ?_, ?_⟩
        · simp [exportLoop, hp, appendObject_objects fields xs p hobj, h1]
        · rw [h2, ← hres]
          simp

theorem resolveAll_length_zip (srv : Server) (names : List String) :
    ∀ ps, resolveAll srv names = Except.ok ps →
      ps.length = names.length ∧
      ∀ pair ∈ names.zip ps, getIndexPattern srv pair.1 = Except.ok pair.2 := by
  induction names with
  | nil =>
    intro ps h
    simp only [resolveAll, Except.ok.injEq] at h
    subst h
    simp
  | cons n rest ih =>
    intro ps h
    unfold resolveAll at h
    cases hp : getIndexPattern srv n with
    | error e => rw [hp] at h; exact absurd h (by simp)
    | ok p =>
      rw [hp] at h
      cases hr : resolveAll srv rest with
      | error e => rw [hr] at h; exact absurd h (by simp)
      | ok ps' =>
        rw [hr] at h
        simp only [Except.ok.injEq] at h
        subst h
        obtain ⟨hlen, hzip⟩ := ih ps' hr
        refine ⟨by simp [hlen], ?_⟩
        intro pair hpair
        rw [List.zip_cons_cons] at hpair
        rcases List.mem_cons.mp hpair with hfst | hrest
        · rw [hfst]; exact hp
        · exact hzip pair hrest

theorem exportLoop_error (srv : Server) (setRaw : SetRaw) (names : List String) :
    ∀ (e : String), resolveAll srv names = Except.error e →
      ∀ doc, exportLoop srv setRaw names doc = Except.error e := by
  induction names with
  | nil => intro e h; exact absurd h (by simp [resolveAll])
  | cons n rest ih =>
    intro e h doc
    unfold resolveAll at h
    cases hp : getIndexPattern srv n with
    | error e' =>
      rw [hp] at h
      simp only [Except.error.injEq] at h
      subst h
      simp [exportLoop, hp]
    | ok p =>
      rw [hp] at h
      cases hr : resolveAll srv rest with
      | error e' =>
        rw [hr] at h
        simp only [Except.error.injEq] at h
        subst h
        simp only [exportLoop, hp]
        exact ih e' hr _
      | ok ps => rw [hr] at h; exact absurd h (by simp)

theorem exportLoop_ok_any (srv : Server) (setRaw : SetRaw) (names : List String) :
    ∀ ps doc, resolveAll srv names = Except.ok ps →
      ∃ out, exportLoop srv setRaw names doc = Except.ok out := by
  induction names with
  | nil => intro ps doc _; exact ⟨doc, rfl⟩
  | cons n rest ih =>
    intro ps doc h
    unfold resolveAll at h
    cases hp : getIndexPattern srv n with
    | error e => rw [hp] at h; exact absurd h (by simp)
    | ok p =>
      rw [hp] at h
      cases hr : resolveAll srv rest with
      | error e => rw [hr] at h; exact absurd h (by simp)
      | ok ps' =>
        obtain ⟨out, hout⟩ := ih ps' (setRaw doc p).1 hr
        exact ⟨out, by simp [exportLoop, hp, hout]⟩

theorem exportLoop_congr (srv : Server) (setRaw setRaw' : SetRaw)
    (h : ∀ d v, (setRaw d v).1 = (setRaw' d v).1) (names : List String) :
    ∀ doc, exportLoop srv setRaw names doc = exportLoop srv setRaw' names doc := by
  induction names with
  | nil => intro doc; rfl
  | cons n rest ih =>
    intro doc
    unfold exportLoop
    cases getIndexPattern srv n with
    | error e => rfl
    | ok p =>
      dsimp only
      rw [h doc p]
      exact ih _

theorem exportDash_single (srv : Server) (setRaw : SetRaw) (name : String) (d : Dashboard)
    (doc : Json) (hsearch : searchDashboard srv ("\"" ++ name ++ "\"") = Except.ok [d])
    (hget : getDashboard srv d.id = Except.ok doc) :
    exportDash srv setRaw name = exportLoop srv setRaw (scanForIndexPatterns doc) doc := by
  unfold exportDash
  rw [hsearch]
  simp [hget]

/-! ### The claims -/

/-- C1: for every dashboard name whose search returns exactly one match and
for which every dependency lookup and append succeeds, the document returned
by export has an `objects` array whose length equals the length of the
`objects` array of the originally fetched export document plus the number of
distinct index-pattern names found by the scanner in that document's
visualizations (the scanner's result is duplicate-free, so its length is
that count). -/
theorem export_objects_length (srv : Server) (name : String) (d : Dashboard)
    (fields : List (String × Json)) (xs : List Json) (ps : List Json)
    (hsearch : searchDashboard srv ("\"" ++ name ++ "\"") = Except.ok [d])
    (hget : getDashboard srv d.id = Except.ok (Json.obj fields))
    (hobj : lookupField fields "objects" = some (Json.arr xs))
    (hres : resolveAll srv (scanForIndexPatterns (Json.obj fields)) = Except.ok ps) :
    ∃ out, exportDash srv appendObject name = Except.ok out ∧
      objectsLength out =
        objectsLength (Json.obj fields) + (scanForIndexPatterns (Json.obj fields)).length := by
  obtain ⟨f', h1, h2⟩ := exportLoop_ok srv _ fields xs ps hobj hres
  refine ⟨Json.obj f', ?_, ?_⟩
  · rw [exportDash_single srv _ name d _ hsearch hget]
    exact h1
  · have hlen := (resolveAll_length_zip srv _ ps hres).1
    simp [objectsLength, getField, h2, hobj, hlen]

/-- Witness for C1 on the "Sales" scenario: 4 original objects, 2 distinct
index-pattern names, 6 objects after export. -/
theorem export_objects_length_witness :
    ∃ out, exportDash demoServer appendObject "Sales" = Except.ok out ∧
      objectsLength out = objectsLength demoDoc + (scanForIndexPatterns demoDoc).length :=
  export_objects_length demoServer "Sales" ⟨"abc123", "Sales"⟩
    [("objects", Json.arr [demoDashObj, demoVis visStateLogs, demoVis visStateLogs,
      demoVis visStateMetrics])]
    [demoDashObj, demoVis visStateLogs, demoVis visStateLogs, demoVis visStateMetrics]
    [logsPattern, metricsPattern] rfl rfl rfl (by rfl)

/-- C2 counterexample: the many-match error text of the index-pattern lookup
begins with a capital `M` (client.go 200), not the lowercase `m` the claim
states. -/
theorem index_pattern_error_message_cex :
    getIndexPattern twoPatternServer "logs-*" =
      Except.error "More than one index-pattern found matching: logs-*.\n" ∧
    getIndexPattern twoPatternServer "logs-*" ≠
      Except.error "more than one index-pattern found matching: logs-*.\n" := by
  constructor
  · rfl
  · intro h
    have h' : (Except.error "More than one index-pattern found matching: logs-*.\n" :
        Except String Json) =
        Except.error "more than one index-pattern found matching: logs-*.\n" := h
    have h2 := Except.error.inj h'
    exact absurd h2 (by decide)

/-- C2 (amended): for every index-pattern name processed in export's
dependency loop, the lookup requires exactly one match: zero matches aborts
with "no index-pattern found matching: name", more than one match aborts
with "More than one index-pattern found matching: name" (capital M), and any
single dependency-lookup failure makes export return that error with no
document emitted. -/
theorem index_pattern_cardinality_amended (srv : Server) (setRaw : SetRaw) (name : String) :
    (srv.findIndexPatterns name = Except.ok [] →
      getIndexPattern srv name =
        Except.error ("no index-pattern found matching: " ++ name ++ ".\n")) ∧
    (∀ p q rest, srv.findIndexPatterns name = Except.ok (p :: q :: rest) →
      getIndexPattern srv name =
        Except.error ("More than one index-pattern found matching: " ++ name ++ ".\n")) ∧
    (∀ dashName d doc e,
      searchDashboard srv ("\"" ++ dashName ++ "\"") = Except.ok [d] →
      getDashboard srv d.id = Except.ok doc →
      resolveAll srv (scanForIndexPatterns doc) = Except.error e →
      exportDash srv setRaw dashName = Except.error e) := by
  refine ⟨?_, ?_, ?_⟩
  · intro h
    simp [getIndexPattern, h]
  · intro p q rest h
    simp [getIndexPattern, h]
  · intro dashName d doc e hs hg hr
    rw [exportDash_single srv setRaw dashName d doc hs hg]
    exact exportLoop_error srv setRaw _ e hr doc

/-- Witness for the amended C2: on a server where "logs-*" has two matches,
export of "Sales" returns the capital-M error and no document. -/
theorem index_pattern_cardinality_amended_witness :
    exportDash twoPatternServer appendObject "Sales" =
      Except.error "More than one index-pattern found matching: logs-*.\n" :=
  (index_pattern_cardinality_amended twoPatternServer appendObject "logs-*").2.2
    "Sales" ⟨"abc123", "Sales"⟩ demoDoc _ rfl rfl (by rfl)

/-- C3: for every dashboard name given to export, zero search matches yields
"no dashboard found matching: name" and more than one match yields "more
than one dashboard found matching: name"; in both cases export returns an
error and never a document. -/
theorem dashboard_cardinality_errors (srv : Server) (setRaw : SetRaw) (name : String) :
    (searchDashboard srv ("\"" ++ name ++ "\"") = Except.ok [] →
      exportDash srv setRaw name =
        Except.error ("no dashboard found matching: " ++ name ++ ".\n")) ∧
    (∀ d1 d2 rest, searchDashboard srv ("\"" ++ name ++ "\"") = Except.ok (d1 :: d2 :: rest) →
      exportDash srv setRaw name =
        Except.error ("more than one dashboard found matching: " ++ name ++ ".\n")) := by
  constructor
  · intro h
    simp [exportDash, h]
  · intro d1 d2 rest h
    simp [exportDash, h]

/-- Witness for C3: a name with no match and a name with two matches. -/
theorem dashboard_cardinality_errors_witness :
    exportDash demoServer appendObject "Ghost" =
      Except.error "no dashboard found matching: Ghost.\n" ∧
    exportDash dupServer appendObject "Dup" =
      Except.error "more than one dashboard found matching: Dup.\n" :=
  ⟨(dashboard_cardinality_errors demoServer appendObject "Ghost").1 rfl,
   (dashboard_cardinality_errors dupServer appendObject "Dup").2
     ⟨"id1", "Dup"⟩ ⟨"id2", "Dup 2"⟩ [] rfl⟩

/-- C4: the scanner returns a duplicate-free set of index-pattern names;
the result is determined (as a set) by the multiset of elements of
`objects`, so any reordering leaves the set unchanged (scanning twice is
literally the same function application); and the "Sales" document with
`logs-*` referenced twice and `metrics-*` once yields exactly the two
names. -/
theorem scanner_dedup_order_independent :
    (∀ d : Json, (scanForIndexPatterns d).Nodup) ∧
    (∀ (d1 d2 : Json) (xs1 xs2 : List Json),
      getField d1 "objects" = some (Json.arr xs1) →
      getField d2 "objects" = some (Json.arr xs2) →
      xs1.Perm xs2 →
      ∀ s, s ∈ scanForIndexPatterns d1 ↔ s ∈ scanForIndexPatterns d2) ∧
    scanForIndexPatterns demoDoc = ["logs-*", "metrics-*"] := by
  refine ⟨scan_nodup, ?_, by rfl⟩
  intro d1 d2 xs1 xs2 h1 h2 hperm s
  rw [mem_scan, mem_scan, visStates_of_objects d1 xs1 h1, visStates_of_objects d2 xs2 h2]
  exact ((hperm.filterMap _).filterMap _).mem_iff

/-- Witness for C4: swapping the first two objects of the "Sales" export
document leaves membership of "logs-*" in the scanned set unchanged. -/
theorem scanner_dedup_order_independent_witness :
    "logs-*" ∈ scanForIndexPatterns demoDoc ↔
      "logs-*" ∈ scanForIndexPatterns demoDocSwapped :=
  scanner_dedup_order_independent.2.1 demoDoc demoDocSwapped _ _ rfl rfl
    (List.Perm.swap (demoVis visStateLogs) demoDashObj
      [demoVis visStateLogs, demoVis visStateMetrics]) "logs-*"

/-- C5: for every sequence of successfully resolved index-pattern records,
the dependency loop leaves every original element of `objects` unchanged
(they reappear as the unmodified prefix), adds exactly N = names.length new
elements, and each added element is the record the dependency lookup
returned for its name. -/
theorem append_frame (srv : Server) (names : List String) (fields : List (String × Json))
    (xs ps : List Json)
    (hobj : lookupField fields "objects" = some (Json.arr xs))
    (hres : resolveAll srv names = Except.ok ps) :
    ∃ fields',
      exportLoop srv appendObject names (Json.obj fields) = Except.ok (Json.obj fields') ∧
      lookupField fields' "objects" = some (Json.arr (xs ++ ps)) ∧
      ps.length = names.length ∧
      ∀ pair ∈ names.zip ps, getIndexPattern srv pair.1 = Except.ok pair.2 := by
  obtain ⟨f', h1, h2⟩ := exportLoop_ok srv names fields xs ps hobj hres
  obtain ⟨hlen, hzip⟩ := resolveAll_length_zip srv names ps hres
  exact ⟨f', h1, h2, hlen, hzip⟩

/-- Witness for C5 on the "Sales" document and its two resolved
dependencies. -/
theorem append_frame_witness :
    ∃ fields',
      exportLoop demoServer appendObject ["logs-*", "metrics-*"]
        (Json.obj [("objects", Json.arr [demoDashObj, demoVis visStateLogs,
          demoVis visStateLogs, demoVis visStateMetrics])]) = Except.ok (Json.obj fields') ∧
      lookupField fields' "objects" = some (Json.arr
        ([demoDashObj, demoVis visStateLogs, demoVis visStateLogs, demoVis visStateMetrics]
          ++ [logsPattern, metricsPattern])) ∧
      ([logsPattern, metricsPattern] : List Json).length =
        (["logs-*", "metrics-*"] : List String).length ∧
      ∀ pair ∈ (["logs-*", "metrics-*"] : List String).zip [logsPattern, metricsPattern],
        getIndexPattern demoServer pair.1 = Except.ok pair.2 :=
  append_frame demoServer ["logs-*", "metrics-*"]
    [("objects", Json.arr [demoDashObj, demoVis visStateLogs, demoVis visStateLogs,
      demoVis visStateMetrics])]
    [demoDashObj, demoVis visStateLogs, demoVis visStateLogs, demoVis visStateMetrics]
    [logsPattern, metricsPattern] rfl (by rfl)

/-- C6: the error of the append step (`sjson.SetRawBytes` at `objects.-1`)
is assigned but never checked: whenever search, fetch and every dependency
lookup succeed, export returns a document with a nil error for *any*
behaviour of the append step — including one that always fails — and the
result never depends on the append step's error component. -/
theorem append_error_unchecked (srv : Server) (setRaw : SetRaw) (name : String)
    (d : Dashboard) (doc : Json) (ps : List Json)
    (hsearch : searchDashboard srv ("\"" ++ name ++ "\"") = Except.ok [d])
    (hget : getDashboard srv d.id = Except.ok doc)
    (hres : resolveAll srv (scanForIndexPatterns doc) = Except.ok ps) :
    (∃ out, exportDash srv setRaw name = Except.ok out) ∧
    exportDash srv setRaw name = exportDash srv (fun a v => ((setRaw a v).1, none)) name := by
  constructor
  · rw [exportDash_single srv setRaw name d doc hsearch hget]
    exact exportLoop_ok_any srv setRaw _ ps doc hres
  · rw [exportDash_single srv setRaw name d doc hsearch hget,
      exportDash_single srv _ name d doc hsearch hget]
    exact exportLoop_congr srv setRaw (fun a v => ((setRaw a v).1, none))
      (fun a v => rfl) _ doc

/-- Witness for C6: with an append step that always reports an error,
export of "Sales" still returns a document with a nil error. -/
theorem append_error_unchecked_witness :
    (∃ out, exportDash demoServer failSetRaw "Sales" = Except.ok out) ∧
    exportDash demoServer failSetRaw "Sales" =
      exportDash demoServer (fun a v => ((failSetRaw a v).1, none)) "Sales" :=
  append_error_unchecked demoServer failSetRaw "Sales" ⟨"abc123", "Sales"⟩ demoDoc
    [logsPattern, metricsPattern] rfl rfl (by rfl)

/-- C7: an element of `objects` that has no `visState` field, or whose
unescaped `visState` string has no `params.index_pattern` path, contributes
no entry to the discovered set (removing it leaves the scanner's result
unchanged), and the scanner — a total function — returns no error. -/
theorem scanner_skips_nonmatching (d1 d2 x : Json) (pre post : List Json)
    (h1 : getField d1 "objects" = some (Json.arr (pre ++ x :: post)))
    (h2 : getField d2 "objects" = some (Json.arr (pre ++ post)))
    (hx : getPath x ["attributes", "visState"] = none ∨
      ∃ s, getPath x ["attributes", "visState"] = some (Json.str s) ∧
        gjsonGetText (goReplace s "\\\"" "\"") ["params", "index_pattern"] = none) :
    scanForIndexPatterns d1 = scanForIndexPatterns d2 := by
  unfold scanForIndexPatterns
  rw [visStates_of_objects d1 _ h1, visStates_of_objects d2 _ h2]
  rcases hx with hnone | ⟨s, hs, hnoidx⟩
  · rw [List.filterMap_append, List.filterMap_cons, hnone, List.filterMap_append]
  · have hext : extractName (Json.str s) = none := by
      simp only [extractName, gjsonString]
      rw [hnoidx]
    rw [List.filterMap_append, List.filterMap_cons, hs, List.filterMap_append,
      List.foldl_append, List.foldl_append, List.foldl_cons, scanStep_eq, hext]

/-- Witness for C7: dropping a visualization whose `visState` has no
`params.index_pattern` does not change the scanned set. -/
theorem scanner_skips_nonmatching_witness :
    scanForIndexPatterns noIndexDoc = scanForIndexPatterns noIndexDocDropped :=
  scanner_skips_nonmatching noIndexDoc noIndexDocDropped (demoVis visStateNoIndex)
    [] [demoVis visStateMetrics] rfl rfl
    (Or.inr ⟨visStateNoIndex, rfl, by rfl⟩)

set_option maxRecDepth 100000 in
/-- C8 counterexample: the per-dependency index-pattern `_find` request
(client.go 174) does *not* carry `per_page=200` — only the dashboard search
(client.go 99) does. -/
theorem per_page_missing_cex :
    ¬ containsSub (getIndexPatternURL "http://kibana:5601" "logs-*") "per_page=200" := by
  decide

set_option maxRecDepth 100000 in
/-- C8 (amended): the dashboard search `_find` URL carries `per_page=200`
(with type, search_fields=title and the pattern), but the per-dependency
index-pattern `_find` URL omits the `per_page` parameter. -/
theorem find_urls_per_page_amended (host pattern : String) :
    containsSub (searchDashboardURL host pattern) "per_page=200" ∧
    ¬ containsSub (getIndexPatternURL "http://kibana:5601" "logs-*") "per_page=200" := by
  constructor
  · have hmid : ("per_page=200".data) <:+:
        ("/api/saved_objects/_find?type=dashboard&per_page=200&search_fields=title&search=".data) := by
      decide
    show ("per_page=200".data) <:+: (searchDashboardURL host pattern).data
    unfold searchDashboardURL
    rw [String.data_append, String.data_append]
    exact hmid.trans (List.infix_append _ _ _)
  · decide

/-- C9 counterexample: the `list` command left-justifies the ID (pads it on
the *right* to 40 characters, Go `%-40v`); the output is not the
left-padded form the claim states. -/
theorem list_left_padding_cex :
    listAction demoGlobals demoServer "Sal" =
      Except.ok (listOutput [⟨"abc123", "Sales"⟩]) ∧
    listOutput [⟨"abc123", "Sales"⟩] ≠ specListOutput [⟨"abc123", "Sales"⟩] := by
  exact ⟨rfl, by decide⟩

/-- C9 (amended): for every list invocation with valid globals, any result
cardinality including zero is a non-error, records are output in
server-given order, and each line is the record's ID left-justified
(right-padded with spaces) to 40 characters, a space, then its NAME, after
a header line formatted the same way. -/
theorem list_output_amended (g : Globals) (srv : Server) (pattern : String)
    (ds : List Dashboard)
    (hg : checkGlobals g = Except.ok ())
    (hs : searchDashboard srv pattern = Except.ok ds) :
    listAction g srv pattern = Except.ok (listOutput ds) ∧
    listOutput ds = (padRightTo "ID" 40 ++ " " ++ "NAME" ++ "\n")
      ++ String.join (ds.map fun d => padRightTo d.id 40 ++ " " ++ d.title ++ "\n") := by
  constructor
  · simp [listAction, hg, hs]
  · rfl

/-- Witness for the amended C9: one match for "Sal", zero matches for
"Nothing"; both are non-errors with the stated output shape. -/
theorem list_output_amended_witness :
    (listAction demoGlobals demoServer "Sal" =
        Except.ok (listOutput [⟨"abc123", "Sales"⟩]) ∧
      listOutput [⟨"abc123", "Sales"⟩] = (padRightTo "ID" 40 ++ " " ++ "NAME" ++ "\n")
        ++ String.join (([⟨"abc123", "Sales"⟩] : List Dashboard).map
          fun d => padRightTo d.id 40 ++ " " ++ d.title ++ "\n")) ∧
    (listAction demoGlobals demoServer "Nothing" = Except.ok (listOutput []) ∧
      listOutput ([] : List Dashboard) = (padRightTo "ID" 40 ++ " " ++ "NAME" ++ "\n")
        ++ String.join (([] : List Dashboard).map
          fun d => padRightTo d.id 40 ++ " " ++ d.title ++ "\n")) :=
  ⟨list_output_amended demoGlobals demoServer "Sal" [⟨"abc123", "Sales"⟩] rfl rfl,
   list_output_amended demoGlobals demoServer "Nothing" [] rfl rfl⟩

/-- C10: the import action never runs the credential check: its outcome is
independent of the globals, it never produces a validation (exit-1) error,
and with any (even empty) credentials it proceeds to read stdin and issue
the HTTP request — while export and list with an empty host stop with the
exit-1 validation error. -/
theorem import_skips_validation :
    (∀ (g g' : Globals) (stdin : Except String String)
        (post : String → Except String (Nat × String)),
      importAction g stdin post = importAction g' stdin post) ∧
    (∀ (g : Globals) (stdin : Except String String)
        (post : String → Except String (Nat × String)) (e : CliError),
      importAction g stdin post = Except.error e → e.2 = 2) ∧
    (∀ payload : String,
      importAction ⟨"", "", ""⟩ (Except.ok payload) (fun _ => Except.ok (200, "ok")) =
        Except.ok ()) ∧
    (∀ (srv : Server) (setRaw : SetRaw) (name : String),
      exportAction ⟨"", "", ""⟩ srv setRaw name =
        Except.error ("kibana host not defined", 1)) ∧
    (∀ (srv : Server) (pattern : String),
      listAction ⟨"", "", ""⟩ srv pattern =
        Except.error ("kibana host not defined", 1)) := by
  refine ⟨?_, ?_, ?_, ?_, ?_⟩
  · intro g g' stdin post
    rfl
  · intro g stdin post e h
    cases stdin with
    | error s =>
      have h' : (Except.error ("could not read import input: " ++ s, 2) :
          Except CliError Unit) = Except.error e := h
      rw [← Except.error.inj h']
    | ok payload =>
      cases hp : importDash post payload with
      | error msg =>
        have h' : (Except.error (msg, 2) : Except CliError Unit) = Except.error e := by
          simpa [importAction, hp] using h
        rw [← Except.error.inj h']
      | ok u =>
        simp [importAction, hp] at h
  · intro payload
    rfl
  · intro srv setRaw name
    rfl
  · intro srv pattern
    rfl

/-- Witness for C10: with fully empty credentials, import reads stdin and
performs the request (succeeding on a 200), and a failed stdin read exits
with code 2, never 1. -/
theorem import_skips_validation_witness :
    importAction ⟨"", "", ""⟩ (Except.ok "payload") (fun _ => Except.ok (200, "ok")) =
      Except.ok () ∧
    (("could not read import input: eof", 2) : CliError).2 = 2 :=
  ⟨import_skips_validation.2.2.1 "payload",
   import_skips_validation.2.1 ⟨"", "", ""⟩ (Except.error "eof")
     (fun _ => Except.ok (200, "ok")) ("could not read import input: eof", 2) rfl⟩
